import Mathlib

set_option maxHeartbeats 1600000

/-! Shallow embedding of the orchestration core of CloudLoom
(source file `src/multi_role_agent/agent.py`): the task-planner fallback JSON
extraction (`TaskPlannerAgent.generate_tasks`), the step executor's
error absorption (`CloudAIAgent.invoke`), the `/process_terraform/`
orchestration loop (`func`), and the Mermaid fence-stripping
post-processing shared by the two diagram routes.  Python strings are
modelled as `List Char`, dicts as association lists, and raised
exceptions as `Except` values that flow to the matching handler. -/

/-- Python whitespace as recognised by `str.strip` (ASCII range; the
planner output is ASCII text). -/
def isPySpace (c : Char) : Bool :=
  c = ' ' || c = '\t' || c = '\n' || c = '\r' || c = Char.ofNat 11 || c = Char.ofNat 12

/-- Python `str.strip()`: drop leading and trailing whitespace. -/
def pyStrip (l : List Char) : List Char :=
  ((l.dropWhile isPySpace).reverse.dropWhile isPySpace).reverse

/-- Python `str.lower()` restricted to ASCII, which covers the ids the planner emits. -/
def pyLower (l : List Char) : List Char := l.map Char.toLower

/-- Python `str.find(c)` for a single character: index of the first occurrence,
`none` standing for Python -1. -/
def pyFind (t : Char) : List Char → Option Nat
  | [] => none
  | c :: rest => if c = t then some 0 else (pyFind t rest).map (· + 1)

/-- Index of the leftmost occurrence of `pat` as a contiguous substring. -/
def findSub (pat : List Char) : List Char → Option Nat
  | [] => if pat = [] then some 0 else none
  | c :: rest =>
    if pat.isPrefixOf (c :: rest) then some 0 else (findSub pat rest).map (· + 1)

/-- Python substring containment `pat in hay`. -/
def listContains (pat hay : List Char) : Bool := (findSub pat hay).isSome

/-- One planner task record, the validated Python dict with keys
`description` and `id` (agent.py line 197). -/
structure PTask where
  description : String
  id : String
deriving Repr, DecidableEq

/-- The two exception classes distinguished by the handlers at the end of
`generate_tasks` (lines 211-218): `json.JSONDecodeError` and every other
`Exception` (the `ValueError`s raised inside the `try`). -/
inductive PErr where
  | jsonDecode (details : String)
  | other (details : String)
deriving Repr, DecidableEq

/-- Model of `re.search` with pattern  triple-backtick `json  \s* ( [\s\S]*? ) \s*`  triple-backtick
followed by `.group(1).strip()` (agent.py line 148-150).  Because the lazy
group matches any text, the leftmost match starts at the first occurrence of
the 7-character opening fence, a match exists exactly when a closing
triple-backtick follows it (a later opening fence cannot match if the first
has no closing fence, since the opening fence itself contains one), the match
ends at the earliest closing fence, and the two greedy `\s*` plus the final
`.strip()` amount to stripping the interior. -/
def findFencedJson (content : List Char) : Option (List Char) :=
  match findSub ("```json".data) content with
  | none => none
  | some p =>
    let after := content.drop (p + 7)
    match findSub ("```".data) after with
    | none => none
    | some q => some (pyStrip (after.take q))

/-- Lines 153-165 of `generate_tasks`: locate the first brace and the first
bracket, keep the earlier one, and fix the matching closing character. -/
def chooseStart (content : List Char) : Option (Nat × Char × Char) :=
  match pyFind '{' content, pyFind '[' content with
  | none, none => none
  | some b, none => some (b, '{', '}')
  | none, some k => some (k, '[', ']')
  | some b, some k => if b < k then some (b, '{', '}') else some (k, '[', ']')

/-- Depth contribution of one character for the chosen bracket pair. -/
def charBal (oc cc c : Char) : Int :=
  if c = oc then 1 else if c = cc then -1 else 0

/-- Net depth of the chosen bracket pair over a list of characters. -/
def pairBal (oc cc : Char) : List Char → Int
  | [] => 0
  | c :: rest => charBal oc cc c + pairBal oc cc rest

/-- The bracket-depth scan of `generate_tasks` (lines 167-176): starting from
accumulated depth `d`, return the offset of the first closing character at
which the depth returns to zero (`end_char_pos`), `none` when the loop falls
off the end of the text (`end_char_pos == -1`). -/
def scanClose (oc cc : Char) : List Char → Int → Option Nat
  | [], _ => none
  | c :: rest, d =>
    let d2 := if c = oc then d + 1 else if c = cc then d - 1 else d
    if c = cc ∧ d2 = 0 then some 0 else (scanClose oc cc rest d2).map (· + 1)

/-- Lines 147-180 of `generate_tasks`: obtain `json_str` from the raw LLM
text, via the fenced block when present, else by bracket-depth matching from
the first brace/bracket; the two `raise ValueError` sites become
`PErr.other`. -/
def extractJsonStr (content : List Char) : Except PErr (List Char) :=
  match findFencedJson content with
  | some s => Except.ok s
  | none =>
    match chooseStart content with
    | none => Except.error (PErr.other "No JSON object or array found in the response.")
    | some (p, oc, cc) =>
      match scanClose oc cc (content.drop p) 0 with
      | none => Except.error (PErr.other
          ("Could not find matching closing bracket/brace for '" ++
            String.mk [content.getD p ' '] ++ "'."))
      | some k => Except.ok ((content.drop p).take (k + 1))

/-- Parsed JSON values as `json.loads` produces them.  Numbers keep their
lexeme (none of the planner's task fields are numeric). -/
inductive Json where
  | null
  | bool (b : Bool)
  | num (lexeme : String)
  | str (s : String)
  | arr (items : List Json)
  | obj (fields : List (String × Json))
deriving Repr

/-- JSON whitespace as accepted by `json.loads`. -/
def isJsonWs (c : Char) : Bool := c = ' ' || c = '\t' || c = '\n' || c = '\r'

/-- Skip JSON whitespace. -/
def skipWs (cs : List Char) : List Char := cs.dropWhile isJsonWs

/-- Value of one hexadecimal digit. -/
def hexVal (c : Char) : Option Nat :=
  if '0' ≤ c ∧ c ≤ '9' then some (c.toNat - 48)
  else if 'a' ≤ c ∧ c ≤ 'f' then some (c.toNat - 87)
  else if 'A' ≤ c ∧ c ≤ 'F' then some (c.toNat - 55)
  else none

/-- Single-character JSON string escapes. -/
def escChar (e : Char) : Option Char :=
  if e = '"' then some '"'
  else if e = '\\' then some '\\'
  else if e = '/' then some '/'
  else if e = 'b' then some (Char.ofNat 8)
  else if e = 'f' then some (Char.ofNat 12)
  else if e = 'n' then some '\n'
  else if e = 'r' then some '\r'
  else if e = 't' then some '\t'
  else none

/-- Parse the remainder of a JSON string literal (after the opening quote),
returning the decoded characters and the unconsumed rest. -/
def parseStringRest : List Char → Except String (List Char × List Char)
  | [] => Except.error "Unterminated string"
  | c :: rest =>
    if c = '"' then Except.ok ([], rest)
    else if c = '\\' then
      match rest with
      | [] => Except.error "Unterminated string"
      | e :: rest2 =>
        if e = 'u' then
          match rest2 with
          | h1 :: h2 :: h3 :: h4 :: rest3 =>
            match hexVal h1, hexVal h2, hexVal h3, hexVal h4 with
            | some a, some b, some c2, some d =>
              match parseStringRest rest3 with
              | Except.ok (s, r) =>
                Except.ok (Char.ofNat (((a * 16 + b) * 16 + c2) * 16 + d) :: s, r)
              | Except.error m => Except.error m
            | _, _, _, _ => Except.error "Invalid hex escape"
          | _ => Except.error "Invalid hex escape"
        else
          match escChar e with
          | some ch =>
            match parseStringRest rest2 with
            | Except.ok (s, r) => Except.ok (ch :: s, r)
            | Except.error m => Except.error m
          | none => Except.error "Invalid escape"
    else if c.toNat < 32 then Except.error "Invalid control character"
    else
      match parseStringRest rest with
      | Except.ok (s, r) => Except.ok (c :: s, r)
      | Except.error m => Except.error m

/-- Decimal digit test. -/
def isDigit (c : Char) : Bool := '0' ≤ c && c ≤ '9'

/-- Lex one JSON number (the scanner's NUMBER_RE): optional minus, integer
part (a lone 0 or a nonzero-led digit run), optional fraction, optional
exponent; incomplete suffixes stay unconsumed exactly as with the regex. -/
def lexNumber (cs : List Char) : Except String (List Char × List Char) :=
  let sign : List Char × List Char :=
    match cs with
    | '-' :: r => (['-'], r)
    | _ => ([], cs)
  match sign.2 with
  | [] => Except.error "Expecting value"
  | c :: _ =>
    if ¬ isDigit c then Except.error "Expecting value"
    else
      let ip : List Char × List Char :=
        if c = '0' then ([c], sign.2.drop 1)
        else (sign.2.takeWhile isDigit, sign.2.dropWhile isDigit)
      let fp : List Char × List Char :=
        match ip.2 with
        | '.' :: r =>
          let ds := r.takeWhile isDigit
          if ds = [] then ([], ip.2) else ('.' :: ds, r.dropWhile isDigit)
        | _ => ([], ip.2)
      let ep : List Char × List Char :=
        match fp.2 with
        | e :: r =>
          if e = 'e' ∨ e = 'E' then
            let sg : List Char × List Char :=
              match r with
              | s :: r2 => if s = '+' ∨ s = '-' then ([s], r2) else ([], r)
              | [] => ([], r)
            let ds := sg.2.takeWhile isDigit
            if ds = [] then ([], fp.2) else (e :: (sg.1 ++ ds), sg.2.dropWhile isDigit)
          else ([], fp.2)
        | [] => ([], fp.2)
      Except.ok (sign.1 ++ ip.1 ++ fp.1 ++ ep.1, ep.2)

mutual

/-- Parse one JSON value, fuel-bounded (the fuel passed by `loads` is large
enough that it never runs out, since every unit of fuel spent consumes at
least one input character). -/
def parseVal : Nat → List Char → Except String (Json × List Char)
  | 0, _ => Except.error "Parser fuel exhausted"
  | Nat.succ fuel, cs =>
    match skipWs cs with
    | [] => Except.error "Expecting value"
    | c :: rest =>
      if c = '"' then
        match parseStringRest rest with
        | Except.ok (s, r) => Except.ok (Json.str (String.mk s), r)
        | Except.error m => Except.error m
      else if c = '{' then parseObjRest fuel rest
      else if c = '[' then parseArrRest fuel rest
      else if ("null".data).isPrefixOf (c :: rest) then
        Except.ok (Json.null, (c :: rest).drop 4)
      else if ("true".data).isPrefixOf (c :: rest) then
        Except.ok (Json.bool true, (c :: rest).drop 4)
      else if ("false".data).isPrefixOf (c :: rest) then
        Except.ok (Json.bool false, (c :: rest).drop 5)
      else if ("NaN".data).isPrefixOf (c :: rest) then
        Except.ok (Json.num "NaN", (c :: rest).drop 3)
      else if ("Infinity".data).isPrefixOf (c :: rest) then
        Except.ok (Json.num "Infinity", (c :: rest).drop 8)
      else if ("-Infinity".data).isPrefixOf (c :: rest) then
        Except.ok (Json.num "-Infinity", (c :: rest).drop 9)
      else if c = '-' ∨ isDigit c then
        match lexNumber (c :: rest) with
        | Except.ok (lx, r) => Except.ok (Json.num (String.mk lx), r)
        | Except.error m => Except.error m
      else Except.error "Expecting value"

/-- Parse an object body after the opening brace. -/
def parseObjRest : Nat → List Char → Except String (Json × List Char)
  | 0, _ => Except.error "Parser fuel exhausted"
  | Nat.succ fuel, cs =>
    match skipWs cs with
    | [] => Except.error "Expecting property name"
    | c :: rest =>
      if c = '}' then Except.ok (Json.obj [], rest)
      else if c = '"' then
        match parseStringRest rest with
        | Except.error m => Except.error m
        | Except.ok (k, r1) =>
          match skipWs r1 with
          | [] => Except.error "Expecting colon delimiter"
          | c2 :: r2 =>
            if c2 = ':' then
              match parseVal fuel r2 with
              | Except.error m => Except.error m
              | Except.ok (v, r3) => parseObjItems fuel [(String.mk k, v)] r3
            else Except.error "Expecting colon delimiter"
      else Except.error "Expecting property name"

/-- Parse the continuation of an object body after at least one pair
(accumulated in reverse in `acc`). -/
def parseObjItems : Nat → List (String × Json) → List Char → Except String (Json × List Char)
  | 0, _, _ => Except.error "Parser fuel exhausted"
  | Nat.succ fuel, acc, cs =>
    match skipWs cs with
    | [] => Except.error "Expecting comma delimiter"
    | c :: rest =>
      if c = '}' then Except.ok (Json.obj acc.reverse, rest)
      else if c = ',' then
        match skipWs rest with
        | [] => Except.error "Expecting property name"
        | c2 :: r2 =>
          if c2 = '"' then
            match parseStringRest r2 with
            | Except.error m => Except.error m
            | Except.ok (k, r3) =>
              match skipWs r3 with
              | [] => Except.error "Expecting colon delimiter"
              | c3 :: r4 =>
                if c3 = ':' then
                  match parseVal fuel r4 with
                  | Except.error m => Except.error m
                  | Except.ok (v, r5) => parseObjItems fuel ((String.mk k, v) :: acc) r5
                else Except.error "Expecting colon delimiter"
          else Except.error "Expecting property name"
      else Except.error "Expecting comma delimiter"

/-- Parse an array body after the opening bracket. -/
def parseArrRest : Nat → List Char → Except String (Json × List Char)
  | 0, _ => Except.error "Parser fuel exhausted"
  | Nat.succ fuel, cs =>
    match skipWs cs with
    | [] => Except.error "Expecting value"
    | c :: rest =>
      if c = ']' then Except.ok (Json.arr [], rest)
      else
        match parseVal fuel (c :: rest) with
        | Except.error m => Except.error m
        | Except.ok (v, r1) => parseArrItems fuel [v] r1

/-- Parse the continuation of an array body after at least one element
(accumulated in reverse in `acc`). -/
def parseArrItems : Nat → List Json → List Char → Except String (Json × List Char)
  | 0, _, _ => Except.error "Parser fuel exhausted"
  | Nat.succ fuel, acc, cs =>
    match skipWs cs with
    | [] => Except.error "Expecting comma delimiter"
    | c :: rest =>
      if c = ']' then Except.ok (Json.arr acc.reverse, rest)
      else if c = ',' then
        match parseVal fuel rest with
        | Except.error m => Except.error m
        | Except.ok (v, r1) => parseArrItems fuel (v :: acc) r1
      else Except.error "Expecting comma delimiter"

end

/-- Model of `json.loads` on the extracted span: parse one value and require only
whitespace to remain (anything else raises "Extra data"). -/
def loads (cs : List Char) : Except String Json :=
  match parseVal (2 * cs.length + 4) cs with
  | Except.error m => Except.error m
  | Except.ok (v, rest) =>
    if skipWs rest = [] then Except.ok v else Except.error "Extra data"

mutual

/-- Python `repr` of a parsed JSON value (single-quoted strings; escaping
inside containers is elided, since no claim renders a container). -/
def pyRepr : Json → String
  | Json.null => "None"
  | Json.bool true => "True"
  | Json.bool false => "False"
  | Json.num lx => lx
  | Json.str s => "'" ++ s ++ "'"
  | Json.arr items => "[" ++ pyReprItems items ++ "]"
  | Json.obj fields => "\x7b" ++ pyReprFields fields ++ "\x7d"

/-- Comma-separated reprs of array elements. -/
def pyReprItems : List Json → String
  | [] => ""
  | [x] => pyRepr x
  | x :: xs => pyRepr x ++ ", " ++ pyReprItems xs

/-- Comma-separated reprs of object entries. -/
def pyReprFields : List (String × Json) → String
  | [] => ""
  | [(k, v)] => "'" ++ k ++ "': " ++ pyRepr v
  | (k, v) :: xs => "'" ++ k ++ "': " ++ pyRepr v ++ ", " ++ pyReprFields xs

end

/-- Python `str()` of a parsed JSON value (agent.py lines 198-199): a string
renders as itself, everything else as its repr. -/
def pyStr : Json → String
  | Json.str s => s
  | v => pyRepr v

/-- Lookup in a dict built by `json.loads`: duplicate keys are last-wins, so
later pairs shadow earlier ones. -/
def jlookup (k : String) : List (String × Json) → Option Json
  | [] => none
  | (k2, v) :: rest =>
    match jlookup k rest with
    | some r => some r
    | none => if k2 = k then some v else none

/-- Lines 184-190 of `generate_tasks`: accept a dict carrying a `tasks` list
or a bare list, otherwise raise `ValueError`. -/
def tasksData : Json → Except PErr (List Json)
  | Json.obj fields =>
    match jlookup "tasks" fields with
    | some (Json.arr items) => Except.ok items
    | _ => Except.error (PErr.other "Parsed JSON is not a list of tasks or a dict containing a 'tasks' list.")
  | Json.arr items => Except.ok items
  | _ => Except.error (PErr.other "Parsed JSON is not a list of tasks or a dict containing a 'tasks' list.")

/-- Lines 193-202, one candidate item at 0-based position `i`: keep dict
items having a `description`, synthesising `task_<i+1>_generated_id` when
`id` is absent; any other shape is dropped with a warning. -/
def validateItem (i : Nat) : Json → Option PTask
  | Json.obj fields =>
    match jlookup "description" fields with
    | some dv =>
      some ⟨pyStr dv,
        match jlookup "id" fields with
        | some idv => pyStr idv
        | none => "task_" ++ toString (i + 1) ++ "_generated_id"⟩
    | none => none
  | _ => none

/-- The validation loop over `enumerate(task_list_data)`. -/
def validateItems (items : List Json) : List PTask :=
  items.enum.filterMap fun p => validateItem p.1 p.2

/-- Lines 182-209 after `json.loads` succeeded: select the candidate list,
validate the items, and raise when nothing valid remains. -/
def tasksFromJson (v : Json) : Except PErr (List PTask) :=
  match tasksData v with
  | Except.error e => Except.error e
  | Except.ok items =>
    let vt := validateItems items
    if vt.isEmpty ∧ ¬ items.isEmpty then
      Except.error (PErr.other "No valid task items found after validation, though data was parsed.")
    else if vt.isEmpty then
      Except.error (PErr.other "No tasks found in the parsed JSON.")
    else Except.ok vt

/-- The whole `try` body of the manual-parsing branch of `generate_tasks`
(lines 147-209) as one fallible computation. -/
def generateTasksCore (content : List Char) : Except PErr (List PTask) :=
  match extractJsonStr content with
  | Except.error e => Except.error e
  | Except.ok js =>
    match loads js with
    | Except.error m => Except.error (PErr.jsonDecode m)
    | Except.ok v => tasksFromJson v

/-- Description text built by the `json.JSONDecodeError` handler (line 212). -/
def decodeErrDesc (content : List Char) (details : String) : String :=
  "Error decoding JSON from LLM. Response: " ++ String.mk (content.take 500) ++
    ". Details: " ++ details

/-- Description text built by the generic `Exception` handler (line 216). -/
def processErrDesc (details : String) : String :=
  "Error generating or processing tasks. Details: " ++ details

/-- The function `generate_tasks` on a free-text LLM response (the manual-parsing branch,
lines 143-218): the `try` body with its two exception handlers. -/
def generate_tasks_manual (content : List Char) : List PTask :=
  match generateTasksCore content with
  | Except.ok ts => ts
  | Except.error (PErr.jsonDecode m) => [⟨decodeErrDesc content m, "task_error_parsing"⟩]
  | Except.error (PErr.other m) => [⟨processErrDesc m, "task_error_processing"⟩]

/-- Model of `TaskPlannerAgent.generate_tasks` with the model call abstracted:
`respond` maps the user query to the LLM response text, whose content the
fallback branch then parses manually. -/
def generate_tasks (respond : String → String) (userQuery : String) : List PTask :=
  generate_tasks_manual (respond userQuery).data

/-- One entry of `current_chat_history`: a Python dict with `role` (always
"user" or "ai" in the loop) and `content`. -/
structure ChatTurn where
  role : String
  content : String
deriving Repr, DecidableEq

/-- Python `dict.get(k, default)` on a response dict (last-wins, as for `jlookup`). -/
def dget (k : String) (dflt : String) : List (String × String) → String
  | [] => dflt
  | (k2, v) :: rest =>
    if (rest.map Prod.fst).contains k2 then dget k dflt rest
    else if k2 = k then v else dget k dflt rest

/-- Best-effort Python repr of a response dict, used by the f-string in the
loop's missing-output diagnostic (line 717). -/
def reprDict (d : List (String × String)) : String :=
  "\x7b" ++ String.intercalate ", " (d.map fun kv => "'" ++ kv.1 ++ "': '" ++ kv.2 ++ "'") ++ "\x7d"

/-- Line 717 of `func`: `response.get('output', f'No output field in
response. Full response: ...')`. -/
def agentOutput (resp : List (String × String)) : String :=
  dget "output" ("No output field in response. Full response: " ++ reprDict resp) resp

/-- Model of `CloudAIAgent.invoke` (lines 285-290): the underlying
`agent_executor.invoke` either returns a response dict or raises; a raised
exception is absorbed into a dict whose `output` describes the failure. -/
def cloudInvoke (result : Except String (List (String × String))) : List (String × String) :=
  match result with
  | Except.ok r => r
  | Except.error e => [("output", "An error occurred: " ++ e)]

/-- The argument bundle of one `agent.invoke` call inside the loop
(lines 709-715). -/
structure StepContext where
  task : String
  cloud_logs : String
  graph_code : String
  memory_block : String
  chat_history : List ChatTurn
deriving Repr, DecidableEq

/-- Line 703: the static per-step log snippet. -/
def mkLogs (id : String) : String :=
  "Simulated logs for task " ++ id ++ ": System health nominal. No critical errors reported prior to this task."

/-- Line 704: the static per-step graph snippet. -/
def mkGraph (id : String) : String :=
  "\x7b'services': \x7b'service_Y': \x7b'status': 'unknown_at_start_of_task_" ++ id ++ "'\x7d\x7d\x7d"

/-- Line 689: the loop-persistent memory block derived from the goal. -/
def sharedMemoryBlock (goal : String) : String :=
  "User role: Senior DevOps Engineer. Overall User Goal: " ++ goal

/-- Line 705: the per-step memory string (0-based step `i` of `n`). -/
def mkMemory (goal : String) (i n : Nat) (desc : String) : String :=
  sharedMemoryBlock goal ++ " Current step: " ++ toString (i + 1) ++ "/" ++ toString n ++
    ". Focus: " ++ String.mk (desc.data.take 80) ++ "..."

/-- The `StepContext` built for 0-based step `i` of `n` with history `h`. -/
def stepContext (goal : String) (n i : Nat) (t : PTask) (h : List ChatTurn) : StepContext :=
  ⟨t.description, mkLogs t.id, mkGraph t.id, mkMemory goal i n t.description, h⟩

/-- One iteration of the loop body (lines 695-722): invoke the executor on
the current history, then append the user turn and the ai turn. -/
def stepOnce (exec : StepContext → List (String × String)) (goal : String) (n i : Nat)
    (h : List ChatTurn) (t : PTask) : List ChatTurn :=
  h ++ [⟨"user", t.description⟩,
        ⟨"ai", agentOutput (exec (stepContext goal n i t h))⟩]

/-- The loop over the task list, threading the history accumulator (`i` is
the 0-based index of the next task, `n` the total `len(tasks)`). -/
def runLoopH (exec : StepContext → List (String × String)) (goal : String) (n : Nat) :
    Nat → List ChatTurn → List PTask → List ChatTurn
  | _, h, [] => h
  | i, h, t :: ts => runLoopH exec goal n (i + 1) (stepOnce exec goal n i h t) ts

/-- The sequence of executor invocations the loop performs, each recorded as
the full argument bundle it was given. -/
def runTraceH (exec : StepContext → List (String × String)) (goal : String) (n : Nat) :
    Nat → List ChatTurn → List PTask → List StepContext
  | _, _, [] => []
  | i, h, t :: ts =>
    stepContext goal n i t h :: runTraceH exec goal n (i + 1) (stepOnce exec goal n i h t) ts

/-- Final chat history of the whole loop (lines 690-722). -/
def runLoop (exec : StepContext → List (String × String)) (goal : String)
    (tasks : List PTask) : List ChatTurn :=
  runLoopH exec goal tasks.length 0 [] tasks

/-- All executor invocations of the whole loop, in order. -/
def runTrace (exec : StepContext → List (String × String)) (goal : String)
    (tasks : List PTask) : List StepContext :=
  runTraceH exec goal tasks.length 0 [] tasks

/-- Chat history after the first `i` tasks (the history passed into 0-based
step `i`), built with the full run's `len(tasks)`. -/
def histUpTo (exec : StepContext → List (String × String)) (goal : String)
    (tasks : List PTask) (i : Nat) : List ChatTurn :=
  runLoopH exec goal tasks.length 0 [] (tasks.take i)

/-- Lines 672-677: the fallback task substituted when planning failed. -/
def fallbackTask (goal : String) : PTask :=
  ⟨"Attempt to address original query directly: " ++ goal, "fallback_direct_query_task"⟩

/-- Line 667 of `func`: `not tasks or not isinstance(tasks, list) or not
tasks[0].get("id") or "error" in tasks[0]["id"].lower()` (the planner always
returns a list of dicts with both keys, so the modelled conditions are
emptiness, an empty first id, and the case-insensitive substring test). -/
def plannerErrorCond (tasks : List PTask) : Bool :=
  match tasks with
  | [] => true
  | t :: _ => t.id = "" || listContains ("error".data) (pyLower t.id.data)

/-- Lines 667-677: keep the planned list or replace it wholesale by the
single fallback task. -/
def chooseTasks (goal : String) (tasks : List PTask) : List PTask :=
  if plannerErrorCond tasks then [fallbackTask goal] else tasks

/-- Split on the newline character, keeping empty pieces, as Python
`str.split` with an explicit separator does. -/
def splitLines (cs : List Char) : List (List Char) :=
  match cs with
  | [] => [[]]
  | c :: rest =>
    if c = '\n' then [] :: splitLines rest
    else
      match splitLines rest with
      | [] => [[c]]
      | l :: ls => (c :: l) :: ls

/-- Inverse of `splitLines`: `'\n'.join(lines)`. -/
def joinLines : List (List Char) → List Char
  | [] => []
  | [l] => l
  | l :: ls => l ++ '\n' :: joinLines ls

/-- The test `line.strip().startswith('...')` with a triple-backtick argument, the fence test of the cleanup loops
(lines 435 and 563). -/
def isFenceLine (l : List Char) : Bool := ("```".data).isPrefixOf (pyStrip l)

/-- The fence-locating loop of the diagram routes (lines 431-440 and
559-567): `i` is the current line index, `s` the running `start_idx`
(initially 0), `e` the initial `end_idx` (the total number of lines); the
first fence line sends `start_idx` past itself, the second ends the scan. -/
def fenceScan : List (List Char) → Nat → Nat → Nat → Nat × Nat
  | [], _, s, e => (s, e)
  | l :: rest, i, s, e =>
    if isFenceLine l then
      if s = 0 then fenceScan rest (i + 1) (i + 1) e else (s, i)
    else fenceScan rest (i + 1) s e

/-- The fence-stripping step of the post-processing shared by
`generate_infrastructure_diagram` (lines 424-446) and
`generate_security_graph` (lines 553-574): the lines kept between
`start_idx` and `end_idx`, rejoined. -/
def fenceInterior (t : List Char) : List Char :=
  let lines := splitLines t
  let se := fenceScan lines 0 0 lines.length
  joinLines ((lines.drop se.1).take (se.2 - se.1))

/-- Continuation of the same post-processing: strip the outer fence when the
stripped response starts with one, then prepend `graph TD` unless the result
already starts with the graph keyword (case-insensitively).  The result is
what both routes write to the artifact file and return. -/
def cleanDiagram (raw : List Char) : List Char :=
  let t := pyStrip raw
  let t2 := if ("```".data).isPrefixOf t then fenceInterior t else t
  if ("graph".data).isPrefixOf (pyLower (pyStrip t2)) then t2
  else ("graph TD\n".data) ++ t2

theorem runLoopH_append (exec : StepContext → List (String × String)) (goal : String)
    (n : Nat) (ts1 ts2 : List PTask) : ∀ (i : Nat) (h : List ChatTurn),
    runLoopH exec goal n i h (ts1 ++ ts2) =
      runLoopH exec goal n (i + ts1.length) (runLoopH exec goal n i h ts1) ts2 := by
  induction ts1 with
  | nil => intro i h; simp [runLoopH]
  | cons t ts ih =>
    intro i h
    simp only [List.cons_append, List.append_eq, runLoopH, List.length_cons]
    rw [ih, show i + 1 + ts.length = i + (ts.length + 1) by omega]

theorem runLoopH_length (exec : StepContext → List (String × String)) (goal : String)
    (n : Nat) (ts : List PTask) : ∀ (i : Nat) (h : List ChatTurn),
    (runLoopH exec goal n i h ts).length = h.length + 2 * ts.length := by
  induction ts with
  | nil => intro i h; simp [runLoopH]
  | cons t ts ih =>
    intro i h
    simp only [runLoopH, ih, stepOnce, List.length_append, List.length_cons]
    simp
    omega

theorem runTraceH_append (exec : StepContext → List (String × String)) (goal : String)
    (n : Nat) (ts1 ts2 : List PTask) : ∀ (i : Nat) (h : List ChatTurn),
    runTraceH exec goal n i h (ts1 ++ ts2) =
      runTraceH exec goal n i h ts1 ++
        runTraceH exec goal n (i + ts1.length) (runLoopH exec goal n i h ts1) ts2 := by
  induction ts1 with
  | nil => intro i h; simp [runTraceH, runLoopH]
  | cons t ts ih =>
    intro i h
    simp only [List.cons_append, List.append_eq, runTraceH, runLoopH, List.length_cons]
    rw [ih, show i + 1 + ts.length = i + (ts.length + 1) by omega]

theorem runTraceH_length (exec : StepContext → List (String × String)) (goal : String)
    (n : Nat) (ts : List PTask) : ∀ (i : Nat) (h : List ChatTurn),
    (runTraceH exec goal n i h ts).length = ts.length := by
  induction ts with
  | nil => intro i h; simp [runTraceH]
  | cons t ts ih => intro i h; simp [runTraceH, ih]

theorem runLoopH_extends (exec : StepContext → List (String × String)) (goal : String)
    (n : Nat) (ts : List PTask) : ∀ (i : Nat) (h : List ChatTurn),
    ∃ tail, runLoopH exec goal n i h ts = h ++ tail := by
  induction ts with
  | nil => intro i h; exact ⟨[], by simp [runLoopH]⟩
  | cons t ts ih =>
    intro i h
    obtain ⟨tail2, htl⟩ := ih (i + 1) (stepOnce exec goal n i h t)
    refine ⟨[⟨"user", t.description⟩,
             ⟨"ai", agentOutput (exec (stepContext goal n i t h))⟩] ++ tail2, ?_⟩
    simp only [stepOnce] at htl
    simp only [runLoopH, stepOnce, htl]
    simp

theorem histUpTo_length (exec : StepContext → List (String × String)) (goal : String)
    (tasks : List PTask) (i : Nat) (hi : i ≤ tasks.length) :
    (histUpTo exec goal tasks i).length = 2 * i := by
  unfold histUpTo
  rw [runLoopH_length]
  simp [List.length_take]
  omega

theorem histUpTo_succ (exec : StepContext → List (String × String)) (goal : String)
    (tasks : List PTask) (i : Nat) (hi : i < tasks.length) :
    histUpTo exec goal tasks (i + 1) =
      histUpTo exec goal tasks i ++
        [⟨"user", tasks[i].description⟩,
         ⟨"ai", agentOutput (exec (stepContext goal tasks.length i tasks[i]
            (histUpTo exec goal tasks i)))⟩] := by
  unfold histUpTo
  have ht : tasks.take (i + 1) = tasks.take i ++ [tasks[i]] := by
    rw [← List.take_concat_get tasks i hi, List.concat_eq_append]
  rw [ht, runLoopH_append]
  have hlen : (tasks.take i).length = i := by
    simp [List.length_take]
    omega
  rw [hlen]
  simp [runLoopH, stepOnce]

theorem runLoop_decomp (exec : StepContext → List (String × String)) (goal : String)
    (tasks : List PTask) (i : Nat) :
    ∃ tail, runLoop exec goal tasks = histUpTo exec goal tasks (i + 1) ++ tail := by
  have h1 : runLoop exec goal tasks =
      runLoopH exec goal tasks.length 0 [] (tasks.take (i + 1) ++ tasks.drop (i + 1)) := by
    rw [List.take_append_drop]
    rfl
  rw [h1, runLoopH_append]
  exact runLoopH_extends exec goal tasks.length (tasks.drop (i + 1)) _ _

theorem runLoop_getElem (exec : StepContext → List (String × String)) (goal : String)
    (tasks : List PTask) (i : Nat) (hi : i < tasks.length) :
    (runLoop exec goal tasks)[2 * i]? = some ⟨"user", tasks[i].description⟩ ∧
    (runLoop exec goal tasks)[2 * i + 1]? =
      some ⟨"ai", agentOutput (exec (stepContext goal tasks.length i tasks[i]
        (histUpTo exec goal tasks i)))⟩ := by
  obtain ⟨tail, hdec⟩ := runLoop_decomp exec goal tasks i
  rw [histUpTo_succ exec goal tasks i hi] at hdec
  have hlen : (histUpTo exec goal tasks i).length = 2 * i :=
    histUpTo_length exec goal tasks i (Nat.le_of_lt hi)
  rw [hdec, List.append_assoc]
  constructor
  · rw [List.getElem?_append_right (by omega)]
    simp [hlen]
  · rw [List.getElem?_append_right (by omega)]
    simp [hlen]

theorem runTrace_getElem (exec : StepContext → List (String × String)) (goal : String)
    (tasks : List PTask) (i : Nat) (hi : i < tasks.length) :
    (runTrace exec goal tasks)[i]? =
      some (stepContext goal tasks.length i tasks[i] (histUpTo exec goal tasks i)) := by
  have h1 : runTrace exec goal tasks =
      runTraceH exec goal tasks.length 0 [] (tasks.take i ++ tasks.drop i) := by
    rw [List.take_append_drop]
    rfl
  rw [h1, runTraceH_append]
  have hl : (runTraceH exec goal tasks.length 0 [] (tasks.take i)).length = i := by
    rw [runTraceH_length]
    simp [List.length_take]
    omega
  rw [List.getElem?_append_right (by omega)]
  have hlen : (tasks.take i).length = i := by
    simp [List.length_take]
    omega
  rw [hl, hlen, List.drop_eq_getElem_cons hi]
  simp [runTraceH, histUpTo]

/-- C1: for every planned task list of length N the orchestration loop
performs exactly N step-executor invocations, in list order; the final chat
history has length exactly 2N; for each 0-based step `i` the history passed
into the invocation is exactly the 2i turns produced by steps 0..i-1, and the
loop appends the user turn holding the task description immediately followed
by the ai turn holding that step's output. -/
theorem c1_orchestration_loop (exec : StepContext → List (String × String))
    (goal : String) (tasks : List PTask) (i : Nat) (hi : i < tasks.length) :
    (runTrace exec goal tasks).length = tasks.length ∧
    (runLoop exec goal tasks).length = 2 * tasks.length ∧
    (histUpTo exec goal tasks i).length = 2 * i ∧
    (runTrace exec goal tasks)[i]? =
      some (stepContext goal tasks.length i tasks[i] (histUpTo exec goal tasks i)) ∧
    histUpTo exec goal tasks (i + 1) =
      histUpTo exec goal tasks i ++
        [⟨"user", tasks[i].description⟩,
         ⟨"ai", agentOutput (exec (stepContext goal tasks.length i tasks[i]
            (histUpTo exec goal tasks i)))⟩] ∧
    (runLoop exec goal tasks)[2 * i]? = some ⟨"user", tasks[i].description⟩ ∧
    (runLoop exec goal tasks)[2 * i + 1]? =
      some ⟨"ai", agentOutput (exec (stepContext goal tasks.length i tasks[i]
        (histUpTo exec goal tasks i)))⟩ := by
  refine ⟨runTraceH_length exec goal tasks.length tasks 0 [], ?_, ?_, ?_, ?_, ?_, ?_⟩
  · have := runLoopH_length exec goal tasks.length tasks 0 []
    simpa [runLoop] using this
  · exact histUpTo_length exec goal tasks i (Nat.le_of_lt hi)
  · exact runTrace_getElem exec goal tasks i hi
  · exact histUpTo_succ exec goal tasks i hi
  · exact (runLoop_getElem exec goal tasks i hi).1
  · exact (runLoop_getElem exec goal tasks i hi).2

/-- A concrete executor used only by witnesses: echoes the task text. -/
def wExec : StepContext → List (String × String) :=
  fun c => [("output", "ok " ++ c.task)]

/-- A concrete two-task plan used only by witnesses. -/
def wTasks : List PTask := [⟨"d1", "t1"⟩, ⟨"d2", "t2"⟩]

/-- Witness for C1: the orchestration-loop invariants at step 1 of the
concrete two-task run. -/
theorem c1_orchestration_loop_witness :
    1 < wTasks.length ∧
    ((runTrace wExec "g" wTasks).length = wTasks.length ∧
     (runLoop wExec "g" wTasks).length = 2 * wTasks.length ∧
     (histUpTo wExec "g" wTasks 1).length = 2 * 1 ∧
     (runTrace wExec "g" wTasks)[1]? =
       some (stepContext "g" wTasks.length 1 (wTasks.get ⟨1, by decide⟩)
         (histUpTo wExec "g" wTasks 1)) ∧
     histUpTo wExec "g" wTasks (1 + 1) =
       histUpTo wExec "g" wTasks 1 ++
         [⟨"user", (wTasks.get ⟨1, by decide⟩).description⟩,
          ⟨"ai", agentOutput (wExec (stepContext "g" wTasks.length 1 (wTasks.get ⟨1, by decide⟩)
             (histUpTo wExec "g" wTasks 1)))⟩] ∧
     (runLoop wExec "g" wTasks)[2 * 1]? = some ⟨"user", (wTasks.get ⟨1, by decide⟩).description⟩ ∧
     (runLoop wExec "g" wTasks)[2 * 1 + 1]? =
       some ⟨"ai", agentOutput (wExec (stepContext "g" wTasks.length 1 (wTasks.get ⟨1, by decide⟩)
         (histUpTo wExec "g" wTasks 1)))⟩) :=
  ⟨by decide, c1_orchestration_loop wExec "g" wTasks 1 (by decide)⟩

/-- C4: whenever the planner output is empty, or its first id is empty or
flags an error, the loop replaces the whole list by the single fallback task
whose description wraps the goal, and then executes exactly that one task. -/
theorem c4_fallback_replacement (goal : String) (tasks : List PTask)
    (exec : StepContext → List (String × String))
    (h : plannerErrorCond tasks = true) :
    chooseTasks goal tasks = [fallbackTask goal] ∧
    (fallbackTask goal).description = "Attempt to address original query directly: " ++ goal ∧
    runTrace exec goal (chooseTasks goal tasks) = [stepContext goal 1 0 (fallbackTask goal) []] ∧
    runLoop exec goal (chooseTasks goal tasks) =
      [⟨"user", (fallbackTask goal).description⟩,
       ⟨"ai", agentOutput (exec (stepContext goal 1 0 (fallbackTask goal) []))⟩] := by
  have hc : chooseTasks goal tasks = [fallbackTask goal] := by simp [chooseTasks, h]
  refine ⟨hc, rfl, ?_, ?_⟩ <;> rw [hc] <;> rfl

/-- Witness for C4: an empty plan is replaced by the fallback task. -/
theorem c4_fallback_replacement_witness :
    plannerErrorCond [] = true ∧
    (chooseTasks "fix the bug" [] = [fallbackTask "fix the bug"] ∧
     (fallbackTask "fix the bug").description =
       "Attempt to address original query directly: " ++ "fix the bug" ∧
     runTrace wExec "fix the bug" (chooseTasks "fix the bug" []) =
       [stepContext "fix the bug" 1 0 (fallbackTask "fix the bug") []] ∧
     runLoop wExec "fix the bug" (chooseTasks "fix the bug" []) =
       [⟨"user", (fallbackTask "fix the bug").description⟩,
        ⟨"ai", agentOutput (wExec (stepContext "fix the bug" 1 0 (fallbackTask "fix the bug") []))⟩]) :=
  ⟨by decide, c4_fallback_replacement "fix the bug" [] wExec (by decide)⟩

/-- C10: the error test on the planner output is a case-insensitive substring
check, so a fully valid plan whose first id merely contains "error" anywhere
is discarded wholesale: the loop invokes only the fallback task, never any of
the planned ones. -/
theorem c10_substring_error_discard (goal desc tid : String) (rest : List PTask)
    (exec : StepContext → List (String × String))
    (h : listContains ("error".data) (pyLower tid.data) = true) :
    plannerErrorCond (⟨desc, tid⟩ :: rest) = true ∧
    chooseTasks goal (⟨desc, tid⟩ :: rest) = [fallbackTask goal] ∧
    runTrace exec goal (chooseTasks goal (⟨desc, tid⟩ :: rest)) =
      [stepContext goal 1 0 (fallbackTask goal) []] := by
  have hc : plannerErrorCond (⟨desc, tid⟩ :: rest) = true := by
    simp only [plannerErrorCond, h, Bool.or_true]
  refine ⟨hc, ?_, ?_⟩
  · simp [chooseTasks, hc]
  · simp only [chooseTasks, hc, if_pos]
    rfl

/-- Witness for C10: a valid two-task plan whose first id is
task_1_fix_error_handling is entirely discarded. -/
theorem c10_substring_error_discard_witness :
    listContains ("error".data) (pyLower ("task_1_fix_error_handling").data) = true ∧
    (plannerErrorCond (⟨"improve the handling", "task_1_fix_error_handling"⟩ ::
        [⟨"deploy", "task_2_deploy"⟩]) = true ∧
     chooseTasks "g2" (⟨"improve the handling", "task_1_fix_error_handling"⟩ ::
        [⟨"deploy", "task_2_deploy"⟩]) = [fallbackTask "g2"] ∧
     runTrace wExec "g2" (chooseTasks "g2" (⟨"improve the handling", "task_1_fix_error_handling"⟩ ::
        [⟨"deploy", "task_2_deploy"⟩])) = [stepContext "g2" 1 0 (fallbackTask "g2") []]) :=
  ⟨by decide, c10_substring_error_discard "g2" "improve the handling"
    "task_1_fix_error_handling" [⟨"deploy", "task_2_deploy"⟩] wExec (by decide)⟩

/-- C8: a step-executor failure is absorbed at the step boundary: a raised
exception becomes a response dict whose output field is a textual description
of the failure, and a loop driven by such an executor always runs to
completion with its full 2N turns, whatever the underlying failures are. -/
theorem c8_step_errors_absorbed (e : String)
    (underlying : StepContext → Except String (List (String × String)))
    (goal : String) (tasks : List PTask) :
    cloudInvoke (Except.error e) = [("output", "An error occurred: " ++ e)] ∧
    agentOutput (cloudInvoke (Except.error e)) = "An error occurred: " ++ e ∧
    (runLoop (fun c => cloudInvoke (underlying c)) goal tasks).length = 2 * tasks.length := by
  refine ⟨rfl, rfl, ?_⟩
  have h := runLoopH_length (fun c => cloudInvoke (underlying c)) goal tasks.length tasks 0 []
  simpa [runLoop] using h

theorem generateTasksCore_ok_ne_nil (content : List Char) (ts : List PTask)
    (h : generateTasksCore content = Except.ok ts) : ts ≠ [] := by
  unfold generateTasksCore at h
  cases he : extractJsonStr content with
  | error e => rw [he] at h; exact absurd h (by simp)
  | ok js =>
    rw [he] at h
    dsimp only at h
    cases hl : loads js with
    | error m => rw [hl] at h; exact absurd h (by simp)
    | ok v =>
      rw [hl] at h
      dsimp only at h
      unfold tasksFromJson at h
      cases hd : tasksData v with
      | error e => rw [hd] at h; dsimp only at h; exact absurd h (by simp)
      | ok items =>
        rw [hd] at h
        dsimp only at h
        by_cases h1 : (validateItems items).isEmpty ∧ ¬ items.isEmpty
        · rw [if_pos h1] at h; exact absurd h (by simp)
        · rw [if_neg h1] at h
          by_cases h2 : ((validateItems items).isEmpty : Prop)
          · rw [if_pos h2] at h; exact absurd h (by simp)
          · rw [if_neg h2] at h
            injection h with h3
            intro hnil
            exact h2 (by rw [h3, hnil]; rfl)

/-- C3: task extraction is total: every input yields either the validated
nonempty list or the single diagnostic task of the matching handler (with id
task_error_parsing for a JSON decode failure and task_error_processing for
every other raised error), and each enumerated failure mode — no
brace/bracket at all, an unmatched brace/bracket, a JSON parse failure —
produces its single-element diagnostic task list carrying the error text. -/
theorem c3_extraction_never_crashes (content : List Char) :
    ((∃ ts, generateTasksCore content = Except.ok ts ∧
        generate_tasks_manual content = ts ∧ ts ≠ []) ∨
     (∃ m, generateTasksCore content = Except.error (PErr.jsonDecode m) ∧
        generate_tasks_manual content = [⟨decodeErrDesc content m, "task_error_parsing"⟩]) ∨
     (∃ m, generateTasksCore content = Except.error (PErr.other m) ∧
        generate_tasks_manual content = [⟨processErrDesc m, "task_error_processing"⟩])) ∧
    (findFencedJson content = none → chooseStart content = none →
      generate_tasks_manual content =
        [⟨processErrDesc "No JSON object or array found in the response.",
          "task_error_processing"⟩]) ∧
    (∀ p oc cc, findFencedJson content = none → chooseStart content = some (p, oc, cc) →
      scanClose oc cc (content.drop p) 0 = none →
      generate_tasks_manual content =
        [⟨processErrDesc ("Could not find matching closing bracket/brace for '" ++
            String.mk [content.getD p ' '] ++ "'."), "task_error_processing"⟩]) ∧
    (∀ js e, extractJsonStr content = Except.ok js → loads js = Except.error e →
      generate_tasks_manual content = [⟨decodeErrDesc content e, "task_error_parsing"⟩]) := by
  refine ⟨?_, ?_, ?_, ?_⟩
  · cases h : generateTasksCore content with
    | ok ts =>
      exact Or.inl ⟨ts, rfl, by simp [generate_tasks_manual, h],
        generateTasksCore_ok_ne_nil content ts h⟩
    | error e =>
      cases e with
      | jsonDecode m => exact Or.inr (Or.inl ⟨m, rfl, by simp [generate_tasks_manual, h]⟩)
      | other m => exact Or.inr (Or.inr ⟨m, rfl, by simp [generate_tasks_manual, h]⟩)
  · intro h1 h2
    simp [generate_tasks_manual, generateTasksCore, extractJsonStr, h1, h2]
  · intro p oc cc h1 h2 h3
    simp [generate_tasks_manual, generateTasksCore, extractJsonStr, h1, h2, h3]
  · intro js e h1 h2
    simp [generate_tasks_manual, generateTasksCore, h1, h2]

/-- Witness for C3 at two concrete failing inputs: text with no bracket at
all, and text with an unmatched brace. -/
theorem c3_extraction_never_crashes_witness :
    (findFencedJson ("plain text only".data) = none ∧
     chooseStart ("plain text only".data) = none ∧
     generate_tasks_manual ("plain text only".data) =
       [⟨processErrDesc "No JSON object or array found in the response.",
         "task_error_processing"⟩]) ∧
    (findFencedJson ("open \x7b unclosed".data) = none ∧
     chooseStart ("open \x7b unclosed".data) = some (5, '{', '}') ∧
     scanClose '{' '}' (("open \x7b unclosed".data).drop 5) 0 = none ∧
     generate_tasks_manual ("open \x7b unclosed".data) =
       [⟨processErrDesc ("Could not find matching closing bracket/brace for '" ++
           String.mk [("open \x7b unclosed".data).getD 5 ' '] ++ "'."), "task_error_processing"⟩]) :=
  ⟨⟨rfl, rfl, (c3_extraction_never_crashes ("plain text only".data)).2.1 rfl rfl⟩,
   ⟨rfl, rfl, rfl,
    (c3_extraction_never_crashes ("open \x7b unclosed".data)).2.2.1 5 '{' '}' rfl rfl rfl⟩⟩

/-- Counterexample for C5: with goal "write hello.txt" and a planner response
containing no JSON at all, `generate_tasks` returns a single diagnostic task
whose description does not embed the goal text anywhere: the claimed
goal-wrapping fallback is not produced by the task-generation function. -/
theorem c5_counterexample :
    generate_tasks (fun _ => "no json here") "write hello.txt" =
      [⟨processErrDesc "No JSON object or array found in the response.",
        "task_error_processing"⟩] ∧
    listContains ("write hello.txt".data)
      ((processErrDesc "No JSON object or array found in the response.").data) = false :=
  ⟨rfl, rfl⟩

/-- C5 amended: a planner call whose response fails to produce any valid task
still returns exactly one task, but it is the diagnostic task of the matching
handler — id task_error_parsing or task_error_processing, description
carrying the error text; the fallback that wraps the goal verbatim lives in
the orchestration loop, not in the task-generation function. -/
theorem c5_single_diagnostic_task (respond : String → String) (goal : String)
    (hfail : ∃ e, generateTasksCore ((respond goal).data) = Except.error e) :
    generate_tasks respond goal ≠ [] ∧
    ((∃ m, generate_tasks respond goal =
        [⟨decodeErrDesc ((respond goal).data) m, "task_error_parsing"⟩]) ∨
     (∃ m, generate_tasks respond goal =
        [⟨processErrDesc m, "task_error_processing"⟩])) := by
  obtain ⟨e, he⟩ := hfail
  cases e with
  | jsonDecode m =>
    refine ⟨?_, Or.inl ⟨m, ?_⟩⟩ <;> simp [generate_tasks, generate_tasks_manual, he]
  | other m =>
    refine ⟨?_, Or.inr ⟨m, ?_⟩⟩ <;> simp [generate_tasks, generate_tasks_manual, he]

/-- Witness for the amended C5 at a concrete failing planner response. -/
theorem c5_single_diagnostic_task_witness :
    (∃ e, generateTasksCore (((fun (_ : String) => "no json here") "g").data) = Except.error e) ∧
    (generate_tasks (fun _ => "no json here") "g" ≠ [] ∧
     ((∃ m, generate_tasks (fun _ => "no json here") "g" =
         [⟨decodeErrDesc (((fun (_ : String) => "no json here") "g").data) m,
           "task_error_parsing"⟩]) ∨
      (∃ m, generate_tasks (fun _ => "no json here") "g" =
         [⟨processErrDesc m, "task_error_processing"⟩]))) :=
  ⟨⟨PErr.other "No JSON object or array found in the response.", rfl⟩,
   c5_single_diagnostic_task (fun _ => "no json here") "g"
     ⟨PErr.other "No JSON object or array found in the response.", rfl⟩⟩

/-- C7: a candidate mapping that has a description but no id is assigned the
synthesised id `task_<p>_generated_id` for its 1-indexed position `p` in the
candidate list, and the validated output contains precisely that task for
this item. -/
theorem c7_synthesised_id (items : List Json) (i : Nat)
    (fields : List (String × Json)) (dv : Json)
    (hi : items[i]? = some (Json.obj fields))
    (hd : jlookup "description" fields = some dv)
    (hid : jlookup "id" fields = none) :
    validateItem i (Json.obj fields) =
      some ⟨pyStr dv, "task_" ++ toString (i + 1) ++ "_generated_id"⟩ ∧
    (⟨pyStr dv, "task_" ++ toString (i + 1) ++ "_generated_id"⟩ : PTask) ∈
      validateItems items := by
  have hv : validateItem i (Json.obj fields) =
      some ⟨pyStr dv, "task_" ++ toString (i + 1) ++ "_generated_id"⟩ := by
    simp [validateItem, hd, hid]
  refine ⟨hv, ?_⟩
  have hmem : ((i, Json.obj fields) : Nat × Json) ∈ items.enum := by
    apply List.getElem?_mem
    rw [List.getElem?_enum, hi]
    rfl
  exact List.mem_filterMap.mpr ⟨(i, Json.obj fields), hmem, hv⟩

/-- Witness for C7: the second candidate lacks an id and gets
task_2_generated_id. -/
theorem c7_synthesised_id_witness :
    ([Json.obj [("description", Json.str "a"), ("id", Json.str "t1")],
      Json.obj [("description", Json.str "b")]] : List Json)[1]? =
        some (Json.obj [("description", Json.str "b")]) ∧
    jlookup "description" [("description", Json.str "b")] = some (Json.str "b") ∧
    jlookup "id" [("description", Json.str "b")] = none ∧
    (validateItem 1 (Json.obj [("description", Json.str "b")]) =
       some ⟨pyStr (Json.str "b"), "task_" ++ toString (1 + 1) ++ "_generated_id"⟩ ∧
     (⟨pyStr (Json.str "b"), "task_" ++ toString (1 + 1) ++ "_generated_id"⟩ : PTask) ∈
       validateItems [Json.obj [("description", Json.str "a"), ("id", Json.str "t1")],
         Json.obj [("description", Json.str "b")]]) :=
  ⟨rfl, rfl, rfl,
   c7_synthesised_id
     [Json.obj [("description", Json.str "a"), ("id", Json.str "t1")],
      Json.obj [("description", Json.str "b")]] 1
     [("description", Json.str "b")] (Json.str "b") rfl rfl rfl⟩

/-- C6: when the response carries a fenced block labeled json, extraction
parses exactly that block's interior: the returned tasks are the validated
items encoded inside the block, in document order, and nothing outside the
block contributes. -/
theorem c6_fenced_block (content interior : List Char) (v : Json) (items : List Json)
    (hf : findFencedJson content = some interior)
    (hl : loads interior = Except.ok v)
    (hd : tasksData v = Except.ok items)
    (hne : validateItems items ≠ []) :
    generateTasksCore content = Except.ok (validateItems items) ∧
    generate_tasks_manual content = validateItems items := by
  have hemp : (validateItems items).isEmpty = false := by
    cases hvi : validateItems items with
    | nil => exact absurd hvi hne
    | cons a l => rfl
  have hcore : generateTasksCore content = Except.ok (validateItems items) := by
    simp [generateTasksCore, extractJsonStr, hf, hl, tasksFromJson, hd, hemp]
  exact ⟨hcore, by simp [generate_tasks_manual, hcore]⟩

/-- Witness for C6: a fenced json block with two tasks, followed by a decoy
JSON list outside the block; extraction returns exactly the block's tasks. -/
theorem c6_fenced_block_witness :
    findFencedJson ("Plan: ```json\n[\x7b\"description\": \"analyze\", \"id\": \"t1\"\x7d, \x7b\"description\": \"report\"\x7d]\n``` also [\x7b\"description\": \"evil\", \"id\": \"zz\"\x7d] trailing".data) =
      some ("[\x7b\"description\": \"analyze\", \"id\": \"t1\"\x7d, \x7b\"description\": \"report\"\x7d]".data) ∧
    loads ("[\x7b\"description\": \"analyze\", \"id\": \"t1\"\x7d, \x7b\"description\": \"report\"\x7d]".data) =
      Except.ok (Json.arr [Json.obj [("description", Json.str "analyze"), ("id", Json.str "t1")],
        Json.obj [("description", Json.str "report")]]) ∧
    tasksData (Json.arr [Json.obj [("description", Json.str "analyze"), ("id", Json.str "t1")],
        Json.obj [("description", Json.str "report")]]) =
      Except.ok [Json.obj [("description", Json.str "analyze"), ("id", Json.str "t1")],
        Json.obj [("description", Json.str "report")]] ∧
    validateItems [Json.obj [("description", Json.str "analyze"), ("id", Json.str "t1")],
        Json.obj [("description", Json.str "report")]] ≠ [] ∧
    generate_tasks_manual ("Plan: ```json\n[\x7b\"description\": \"analyze\", \"id\": \"t1\"\x7d, \x7b\"description\": \"report\"\x7d]\n``` also [\x7b\"description\": \"evil\", \"id\": \"zz\"\x7d] trailing".data) =
      validateItems [Json.obj [("description", Json.str "analyze"), ("id", Json.str "t1")],
        Json.obj [("description", Json.str "report")]] :=
  ⟨rfl, rfl, rfl, by decide,
   (c6_fenced_block
     ("Plan: ```json\n[\x7b\"description\": \"analyze\", \"id\": \"t1\"\x7d, \x7b\"description\": \"report\"\x7d]\n``` also [\x7b\"description\": \"evil\", \"id\": \"zz\"\x7d] trailing".data)
     ("[\x7b\"description\": \"analyze\", \"id\": \"t1\"\x7d, \x7b\"description\": \"report\"\x7d]".data)
     (Json.arr [Json.obj [("description", Json.str "analyze"), ("id", Json.str "t1")],
        Json.obj [("description", Json.str "report")]])
     [Json.obj [("description", Json.str "analyze"), ("id", Json.str "t1")],
        Json.obj [("description", Json.str "report")]]
     rfl rfl rfl (by decide)).2⟩

theorem scanStep_eq (oc cc c : Char) (d : Int) :
    (if c = oc then d + 1 else if c = cc then d - 1 else d) = d + charBal oc cc c := by
  unfold charBal
  split_ifs <;> ring

theorem scanClose_cons (oc cc c : Char) (rest : List Char) (d : Int) :
    scanClose oc cc (c :: rest) d =
      (if c = cc ∧ d + charBal oc cc c = 0 then some 0
       else (scanClose oc cc rest (d + charBal oc cc c)).map (· + 1)) := by
  simp only [scanClose]
  rw [scanStep_eq]

theorem pairBal_cons (oc cc c : Char) (l : List Char) :
    pairBal oc cc (c :: l) = charBal oc cc c + pairBal oc cc l := rfl

theorem pairBal_append (oc cc : Char) (a b : List Char) :
    pairBal oc cc (a ++ b) = pairBal oc cc a + pairBal oc cc b := by
  induction a with
  | nil => simp [pairBal]
  | cons c rest ih => simp [pairBal_cons, ih]; ring

theorem pairBal_take_succ (oc cc : Char) (l : List Char) (m : Nat) (hm : m < l.length) :
    pairBal oc cc (l.take (m + 1)) = pairBal oc cc (l.take m) + charBal oc cc l[m] := by
  have h1 : l.take (m + 1) = l.take m ++ [l[m]] := by
    rw [List.take_succ, List.getElem?_eq_getElem hm]
    rfl
  rw [h1, pairBal_append, pairBal_cons]
  simp [pairBal]

theorem charBal_ge (oc cc c : Char) : -1 ≤ charBal oc cc c := by
  unfold charBal
  split_ifs <;> decide

theorem charBal_le (oc cc c : Char) : charBal oc cc c ≤ 1 := by
  unfold charBal
  split_ifs <;> decide

theorem charBal_eq_cc (oc cc c : Char) (h : charBal oc cc c = -1) : c = cc := by
  unfold charBal at h
  split_ifs at h with h1 h2
  exact h2

theorem pyFind_head (t : Char) : ∀ (l : List Char) (p : Nat), pyFind t l = some p →
    ∃ rest, l.drop p = t :: rest := by
  intro l
  induction l with
  | nil => intro p h; exact absurd h (by simp [pyFind])
  | cons c cs ih =>
    intro p h
    by_cases hc : c = t
    · simp [pyFind, hc] at h
      exact ⟨cs, by rw [← h]; simp [hc]⟩
    · simp [pyFind, hc] at h
      obtain ⟨q, hq, hqp⟩ := h
      obtain ⟨rest, hrest⟩ := ih q hq
      exact ⟨rest, by rw [← hqp]; simpa using hrest⟩

theorem chooseStart_spec (content : List Char) (p : Nat) (oc cc : Char)
    (h : chooseStart content = some (p, oc, cc)) :
    oc ≠ cc ∧ ∃ rest, content.drop p = oc :: rest := by
  unfold chooseStart at h
  cases hb : pyFind '{' content <;> cases hk : pyFind '[' content <;>
    rw [hb, hk] at h <;> dsimp only at h
  · exact absurd h (by simp)
  · simp only [Option.some.injEq, Prod.mk.injEq] at h
    obtain ⟨hp, hoc, hcc⟩ := h
    subst hp; subst hoc; subst hcc
    exact ⟨by decide, pyFind_head _ content _ hk⟩
  · simp only [Option.some.injEq, Prod.mk.injEq] at h
    obtain ⟨hp, hoc, hcc⟩ := h
    subst hp; subst hoc; subst hcc
    exact ⟨by decide, pyFind_head _ content _ hb⟩
  · split_ifs at h <;>
      (simp only [Option.some.injEq, Prod.mk.injEq] at h
       obtain ⟨hp, hoc, hcc⟩ := h
       subst hp; subst hoc; subst hcc)
    · exact ⟨by decide, pyFind_head _ content _ hb⟩
    · exact ⟨by decide, pyFind_head _ content _ hk⟩

theorem scanClose_first_hit (oc cc : Char) :
    ∀ (l : List Char) (d : Int) (k : Nat) (hk : k < l.length),
    l[k] = cc →
    d + pairBal oc cc (l.take (k + 1)) = 0 →
    (∀ j, j < k → ∀ (hj : j < l.length),
      ¬(l[j] = cc ∧ d + pairBal oc cc (l.take (j + 1)) = 0)) →
    scanClose oc cc l d = some k := by
  intro l
  induction l with
  | nil => intro d k hk; exact absurd hk (by simp)
  | cons c rest ih =>
    intro d k hk hcc hz hfirst
    cases k with
    | zero =>
      have hc : c = cc := by simpa using hcc
      have ht1 : pairBal oc cc ((c :: rest).take (0 + 1)) = charBal oc cc c := by
        simp [pairBal_cons, pairBal]
      rw [ht1] at hz
      rw [scanClose_cons, if_pos ⟨hc, hz⟩]
    | succ k2 =>
      have hne : ¬(c = cc ∧ d + charBal oc cc c = 0) := by
        intro hcon
        have h0 := hfirst 0 (by omega) (by simp)
        apply h0
        have ht1 : pairBal oc cc ((c :: rest).take (0 + 1)) = charBal oc cc c := by
          simp [pairBal_cons, pairBal]
        constructor
        · simpa using hcon.1
        · rw [ht1]
          exact hcon.2
      rw [scanClose_cons, if_neg hne]
      have hk2 : k2 < rest.length := by simpa using hk
      have hcc2 : rest[k2] = cc := by simpa using hcc
      have hz2 : (d + charBal oc cc c) + pairBal oc cc (rest.take (k2 + 1)) = 0 := by
        have ht : (c :: rest).take (k2 + 1 + 1) = c :: rest.take (k2 + 1) := rfl
        rw [ht, pairBal_cons] at hz
        omega
      have hfirst2 : ∀ j, j < k2 → ∀ (hj : j < rest.length),
          ¬(rest[j] = cc ∧ (d + charBal oc cc c) + pairBal oc cc (rest.take (j + 1)) = 0) := by
        intro j hjlt hj hcon
        obtain ⟨hc1, hc2⟩ := hcon
        have h1 := hfirst (j + 1) (by omega) (by simpa using Nat.succ_lt_succ hj)
        apply h1
        have ht : (c :: rest).take (j + 1 + 1) = c :: rest.take (j + 1) := rfl
        constructor
        · simpa using hc1
        · rw [ht, pairBal_cons]
          omega
      rw [ih (d + charBal oc cc c) k2 hk2 hcc2 hz2 hfirst2]
      rfl

theorem pairBal_pos_upto (oc cc : Char) (l : List Char) (rest : List Char)
    (hhead : l = oc :: rest) (n : Nat) (hn : n ≤ l.length)
    (hmin : ∀ m, m < n → 1 ≤ m → pairBal oc cc (l.take m) ≠ 0) :
    ∀ m, m < n → 1 ≤ m → 1 ≤ pairBal oc cc (l.take m) := by
  intro m
  induction m with
  | zero => intro _ h1; exact absurd h1 (by omega)
  | succ m2 ih =>
    intro hmn _
    cases Nat.eq_zero_or_pos m2 with
    | inl h0 =>
      subst h0
      have ht1 : pairBal oc cc (l.take (0 + 1)) = 1 := by
        rw [hhead]
        simp [pairBal_cons, pairBal, charBal]
      omega
    | inr hpos =>
      have hb := ih (by omega) hpos
      have hm : m2 < l.length := by omega
      have hs := pairBal_take_succ oc cc l m2 hm
      have hne := hmin (m2 + 1) hmn (by omega)
      have hge := charBal_ge oc cc (l[m2])
      omega

/-- C2: when the response has no fenced json block but a balanced JSON value,
extraction takes the span that starts at the first brace/bracket of the text
and ends where bracket-depth matching on the chosen pair first returns to
depth zero — the minimal balanced span, `(content.drop p).take n` — and hands
exactly that span to `json.loads`, whose result drives the task pipeline. -/
theorem c2_minimal_balanced_span (content : List Char) (p : Nat) (oc cc : Char)
    (n : Nat) (v : Json)
    (hnf : findFencedJson content = none)
    (hcs : chooseStart content = some (p, oc, cc))
    (hn1 : 1 ≤ n) (hnlen : n ≤ (content.drop p).length)
    (hbal : pairBal oc cc ((content.drop p).take n) = 0)
    (hmin : ∀ m, m < n → 1 ≤ m → pairBal oc cc ((content.drop p).take m) ≠ 0)
    (hparse : loads ((content.drop p).take n) = Except.ok v) :
    extractJsonStr content = Except.ok ((content.drop p).take n) ∧
    generateTasksCore content = tasksFromJson v := by
  obtain ⟨_hocc, rest, hhead⟩ := chooseStart_spec content p oc cc hcs
  have hb1 : pairBal oc cc ((content.drop p).take (0 + 1)) = 1 := by
    rw [hhead]
    simp [pairBal_cons, pairBal, charBal]
  have hn2 : 2 ≤ n := by
    by_contra hcon
    have hn1' : n = 1 := by omega
    rw [hn1', show (1 : Nat) = 0 + 1 from rfl] at hbal
    omega
  have hpos := pairBal_pos_upto oc cc (content.drop p) rest hhead n hnlen hmin
  have hm1 : n - 1 < (content.drop p).length := by omega
  have hstep := pairBal_take_succ oc cc (content.drop p) (n - 1) hm1
  rw [show n - 1 + 1 = n by omega] at hstep
  have hprev := hpos (n - 1) (by omega) (by omega)
  have hcb : charBal oc cc ((content.drop p)[n - 1]) = -1 := by
    have hle := charBal_le oc cc ((content.drop p)[n - 1])
    have hge := charBal_ge oc cc ((content.drop p)[n - 1])
    omega
  have hccn : (content.drop p)[n - 1] = cc := charBal_eq_cc oc cc _ hcb
  have hz : (0 : Int) + pairBal oc cc ((content.drop p).take (n - 1 + 1)) = 0 := by
    rw [show n - 1 + 1 = n by omega, hbal]
    omega
  have hfirst : ∀ j, j < n - 1 → ∀ (hj : j < (content.drop p).length),
      ¬((content.drop p)[j] = cc ∧
        (0 : Int) + pairBal oc cc ((content.drop p).take (j + 1)) = 0) := by
    intro j hjlt hj hcon
    obtain ⟨hc1, hc2⟩ := hcon
    exact hmin (j + 1) (by omega) (by omega) (by omega)
  have hscan : scanClose oc cc (content.drop p) 0 = some (n - 1) :=
    scanClose_first_hit oc cc (content.drop p) 0 (n - 1) hm1 hccn hz hfirst
  have hjson : extractJsonStr content = Except.ok ((content.drop p).take n) := by
    simp only [extractJsonStr, hnf, hcs, hscan]
    rw [show n - 1 + 1 = n by omega]
  refine ⟨hjson, ?_⟩
  simp only [generateTasksCore, hjson, hparse]

/-- Witness for C2: unlabeled JSON embedded in prose, followed by a stray
opening brace; extraction takes exactly the minimal balanced span. -/
theorem c2_minimal_balanced_span_witness :
    findFencedJson ("text \x7b \"a\": 1 \x7d tail \x7b x".data) = none ∧
    chooseStart ("text \x7b \"a\": 1 \x7d tail \x7b x".data) = some (5, '{', '}') ∧
    1 ≤ 10 ∧
    10 ≤ (("text \x7b \"a\": 1 \x7d tail \x7b x".data).drop 5).length ∧
    pairBal '{' '}' ((("text \x7b \"a\": 1 \x7d tail \x7b x".data).drop 5).take 10) = 0 ∧
    loads ((("text \x7b \"a\": 1 \x7d tail \x7b x".data).drop 5).take 10) =
      Except.ok (Json.obj [("a", Json.num "1")]) ∧
    (extractJsonStr ("text \x7b \"a\": 1 \x7d tail \x7b x".data) =
       Except.ok ((("text \x7b \"a\": 1 \x7d tail \x7b x".data).drop 5).take 10) ∧
     generateTasksCore ("text \x7b \"a\": 1 \x7d tail \x7b x".data) =
       tasksFromJson (Json.obj [("a", Json.num "1")])) :=
  ⟨rfl, rfl, by omega, by decide, by decide, rfl,
   c2_minimal_balanced_span ("text \x7b \"a\": 1 \x7d tail \x7b x".data) 5 '{' '}' 10
     (Json.obj [("a", Json.num "1")]) rfl rfl (by omega) (by decide) (by decide)
     (by intro m hm h1; interval_cases m <;> decide) rfl⟩

theorem splitLines_ne_nil : ∀ (cs : List Char), splitLines cs ≠ [] := by
  intro cs
  induction cs with
  | nil => simp [splitLines]
  | cons c rest ih =>
    by_cases hc : c = '\n'
    · simp [splitLines, hc]
    · rw [splitLines, if_neg hc]
      split <;> simp

theorem splitLines_cons_eq (c : Char) (cs l : List Char) (ls : List (List Char))
    (hc : ¬ c = '\n') (h : splitLines cs = l :: ls) :
    splitLines (c :: cs) = (c :: l) :: ls := by
  rw [splitLines, if_neg hc, h]

theorem splitLines_no_newline : ∀ (cs : List Char) (l : List Char),
    l ∈ splitLines cs → '\n' ∉ l := by
  intro cs
  induction cs with
  | nil =>
    intro l hl
    simp [splitLines] at hl
    subst hl
    simp
  | cons c rest ih =>
    intro l hl
    by_cases hc : c = '\n'
    · rw [splitLines, if_pos hc] at hl
      rcases List.mem_cons.mp hl with h | h
      · subst h; simp
      · exact ih l h
    · rw [splitLines, if_neg hc] at hl
      cases h : splitLines rest with
      | nil => exact absurd h (splitLines_ne_nil rest)
      | cons l0 ls =>
        rw [h] at hl
        dsimp only at hl
        rcases List.mem_cons.mp hl with h1 | h1
        · subst h1
          intro hmem
          rcases List.mem_cons.mp hmem with h2 | h2
          · exact hc h2.symm
          · exact ih l0 (by rw [h]; exact List.mem_cons_self l0 ls) h2
        · exact ih l (by rw [h]; exact List.mem_cons.mpr (Or.inr h1))

theorem splitLines_append_cons : ∀ (pre rest : List Char), '\n' ∉ pre →
    splitLines (pre ++ '\n' :: rest) = pre :: splitLines rest := by
  intro pre
  induction pre with
  | nil =>
    intro rest _
    rw [List.nil_append, splitLines, if_pos rfl]
  | cons c pre2 ih =>
    intro rest hp
    have hc : ¬ c = '\n' := by
      intro h
      exact hp (by rw [h]; exact List.mem_cons_self _ _)
    have hp2 : '\n' ∉ pre2 := fun h => hp (List.mem_cons.mpr (Or.inr h))
    rw [List.cons_append, splitLines, if_neg hc, ih rest hp2]

theorem splitLines_single : ∀ (l : List Char), '\n' ∉ l → splitLines l = [l] := by
  intro l
  induction l with
  | nil => intro _; rfl
  | cons c rest ih =>
    intro h
    have hc : ¬ c = '\n' := fun hh => h (by rw [hh]; exact List.mem_cons_self _ _)
    rw [splitLines, if_neg hc, ih (fun hx => h (List.mem_cons.mpr (Or.inr hx)))]

theorem splitLines_joinLines : ∀ (ls : List (List Char)), ls ≠ [] →
    (∀ l ∈ ls, '\n' ∉ l) → splitLines (joinLines ls) = ls := by
  intro ls
  induction ls with
  | nil => intro h; exact absurd rfl h
  | cons l ls2 ih =>
    intro _ hall
    cases ls2 with
    | nil => exact splitLines_single l (hall l (by simp))
    | cons l2 ls3 =>
      rw [show joinLines (l :: l2 :: ls3) = l ++ '\n' :: joinLines (l2 :: ls3) from rfl]
      rw [splitLines_append_cons l _ (hall l (by simp))]
      rw [ih (by simp) (fun x hx => hall x (List.mem_cons.mpr (Or.inr hx)))]

theorem backtick_prefix_isFence (l : List Char) (h : ("```".data).isPrefixOf l = true) :
    isFenceLine l = true := by
  rw [ List.isPrefixOf_iff_prefix] at h
  obtain ⟨t, ht⟩ := h
  subst ht
  unfold isFenceLine pyStrip
  have h1 : (("```".data ++ t)).dropWhile isPySpace = "```".data ++ t := by
    rw [show ("```".data ++ t) = '`' :: ("``".data ++ t) from rfl]
    rw [List.dropWhile_cons]
    rw [if_neg (by decide)]
  rw [h1, List.reverse_append, List.dropWhile_append]
  by_cases he : (t.reverse.dropWhile isPySpace).isEmpty
  · rw [if_pos he]
    decide
  · rw [if_neg he, List.reverse_append, List.reverse_reverse]
    rw [ List.isPrefixOf_iff_prefix]
    exact ⟨_, rfl⟩

theorem fenceScan_spec : ∀ (ls : List (List Char)) (i s : Nat), s ≠ 0 →
    (fenceScan ls i s (i + ls.length)).1 = s ∧
    i ≤ (fenceScan ls i s (i + ls.length)).2 ∧
    ∀ l ∈ ls.take ((fenceScan ls i s (i + ls.length)).2 - i), isFenceLine l = false := by
  intro ls
  induction ls with
  | nil =>
    intro i s hs
    exact ⟨rfl, by simp [fenceScan], by simp [fenceScan]⟩
  | cons l rest ih =>
    intro i s hs
    by_cases hf : isFenceLine l = true
    · have hstep : fenceScan (l :: rest) i s (i + (l :: rest).length) = (s, i) := by
        rw [fenceScan, if_pos hf, if_neg hs]
      rw [hstep]
      exact ⟨rfl, le_refl i, by simp⟩
    · have hf2 : isFenceLine l = false := by simpa using hf
      have he : i + (l :: rest).length = (i + 1) + rest.length := by
        simp [List.length_cons]
        omega
      rw [he]
      have hstep : fenceScan (l :: rest) i s ((i + 1) + rest.length) =
          fenceScan rest (i + 1) s ((i + 1) + rest.length) := by
        rw [fenceScan, if_neg (by simp [hf2])]
      rw [hstep]
      obtain ⟨h1, h2, h3⟩ := ih (i + 1) s hs
      refine ⟨h1, by omega, ?_⟩
      intro x hx
      rw [show (fenceScan rest (i + 1) s ((i + 1) + rest.length)).2 - i =
            ((fenceScan rest (i + 1) s ((i + 1) + rest.length)).2 - (i + 1)) + 1 from by omega,
          List.take_succ_cons] at hx
      rcases List.mem_cons.mp hx with h | h
      · subst h; exact hf2
      · exact h3 x h

/-- C9: for a model response wrapped in triple-fence markers whose fenced
content does not start with the graph keyword, the stored artifact (the
cleaned diagram text written to the file and returned) begins with the
canonical graph-start token `graph TD` and none of its lines is a fence
marker. -/
theorem c9_fence_stripped_graph (raw : List Char)
    (hfence : ("```".data).isPrefixOf (pyStrip raw) = true)
    (hng : ("graph".data).isPrefixOf (pyLower (pyStrip (fenceInterior (pyStrip raw)))) = false) :
    cleanDiagram raw = ("graph TD\n".data) ++ fenceInterior (pyStrip raw) ∧
    ("graph TD".data).isPrefixOf (cleanDiagram raw) = true ∧
    ∀ l ∈ splitLines (cleanDiagram raw), isFenceLine l = false := by
  have hclean : cleanDiagram raw = ("graph TD\n".data) ++ fenceInterior (pyStrip raw) := by
    unfold cleanDiagram
    dsimp only
    rw [if_pos hfence, if_neg (by rw [hng]; exact Bool.false_ne_true)]
  have hpre : ("graph TD".data).isPrefixOf (cleanDiagram raw) = true := by
    rw [hclean, List.isPrefixOf_iff_prefix]
    exact ⟨'\n' :: fenceInterior (pyStrip raw), rfl⟩
  refine ⟨hclean, hpre, ?_⟩
  obtain ⟨t2, ht⟩ : ∃ t2, pyStrip raw = '`' :: '`' :: '`' :: t2 := by
    rw [ List.isPrefixOf_iff_prefix] at hfence
    obtain ⟨u, hu⟩ := hfence
    exact ⟨u, hu.symm⟩
  obtain ⟨l3, ls3, h3eq⟩ : ∃ l ls, splitLines t2 = l :: ls := by
    cases h : splitLines t2 with
    | nil => exact absurd h (splitLines_ne_nil t2)
    | cons a b => exact ⟨a, b, rfl⟩
  have hsp1 := splitLines_cons_eq '`' t2 l3 ls3 (by decide) h3eq
  have hsp2 := splitLines_cons_eq '`' _ _ _ (by decide) hsp1
  have hsp3 := splitLines_cons_eq '`' _ _ _ (by decide) hsp2
  have hl0 : isFenceLine ('`' :: '`' :: '`' :: l3) = true := by
    apply backtick_prefix_isFence
    rw [ List.isPrefixOf_iff_prefix]
    exact ⟨l3, rfl⟩
  have hscan : fenceScan ((('`' :: '`' :: '`' :: l3)) :: ls3) 0 0
      (((('`' :: '`' :: '`' :: l3)) :: ls3).length) = fenceScan ls3 1 1 (1 + ls3.length) := by
    rw [fenceScan, if_pos hl0, if_pos rfl]
    rw [show ((('`' :: '`' :: '`' :: l3)) :: ls3).length = 1 + ls3.length from by
      simp [List.length_cons]; omega]
  obtain ⟨hr1, hr2, hr3⟩ := fenceScan_spec ls3 1 1 (by omega)
  have hfi : fenceInterior (pyStrip raw) =
      joinLines (ls3.take ((fenceScan ls3 1 1 (1 + ls3.length)).2 - 1)) := by
    rw [ht]
    unfold fenceInterior
    dsimp only
    rw [hsp3, hscan, hr1]
    rfl
  rw [hclean, hfi]
  rw [show ("graph TD\n".data) ++ joinLines (ls3.take ((fenceScan ls3 1 1 (1 + ls3.length)).2 - 1)) =
        ("graph TD".data) ++ '\n' :: joinLines (ls3.take ((fenceScan ls3 1 1 (1 + ls3.length)).2 - 1))
      from rfl]
  rw [splitLines_append_cons _ _ (by decide)]
  intro x hx
  rcases List.mem_cons.mp hx with h | h
  · subst h
    decide
  · by_cases hinner : ls3.take ((fenceScan ls3 1 1 (1 + ls3.length)).2 - 1) = []
    · rw [hinner] at h
      rw [show joinLines [] = [] from rfl] at h
      rw [show splitLines [] = [[]] from rfl] at h
      rcases List.mem_cons.mp h with h2 | h2
      · subst h2; decide
      · exact absurd h2 (by simp)
    · rw [splitLines_joinLines _ hinner ?_] at h
      · exact hr3 x h
      · intro y hy
        have hy2 : y ∈ ls3 := List.mem_of_mem_take hy
        exact splitLines_no_newline t2 y (by rw [h3eq]; exact List.mem_cons.mpr (Or.inr hy2))

/-- Witness for C9: a fenced mermaid response not starting with the graph
keyword. -/
theorem c9_fence_stripped_graph_witness :
    ("```".data).isPrefixOf (pyStrip ("```mermaid\nA --> B\n```".data)) = true ∧
    ("graph".data).isPrefixOf
      (pyLower (pyStrip (fenceInterior (pyStrip ("```mermaid\nA --> B\n```".data))))) = false ∧
    (cleanDiagram ("```mermaid\nA --> B\n```".data) =
       ("graph TD\n".data) ++ fenceInterior (pyStrip ("```mermaid\nA --> B\n```".data)) ∧
     ("graph TD".data).isPrefixOf (cleanDiagram ("```mermaid\nA --> B\n```".data)) = true ∧
     ∀ l ∈ splitLines (cleanDiagram ("```mermaid\nA --> B\n```".data)), isFenceLine l = false) :=
  ⟨rfl, rfl, c9_fence_stripped_graph ("```mermaid\nA --> B\n```".data) rfl rfl⟩
